import Mathlib

/-!
Verification of the pod mutation engine of marxus/k8s-mca.

The definitions below are a shallow embedding of `pkg/inject/inject.go`
(the selective-redirection version whose helpers `addVolumeMount` /
`addEnvVars` / `addRequiredVolume` are documented in the package's test
suite), together with the webhook adapter's `mutate` / `generateJSONPatch`
from the webhook server source.  Go slices become lists, Go structs become
structures restricted to the fields the engine reads or writes, and the
possibility of a Go panic (out-of-bounds slice indexing) is made explicit
by returning `Option`.
-/

namespace K8sMCA

/-- corev1.EnvVar restricted to the fields the engine uses. -/
structure EnvVar where
  name : String
  value : String
deriving DecidableEq, Repr

/-- corev1.VolumeMount restricted to the fields the engine uses. -/
structure VolumeMount where
  name : String
  mountPath : String
  readOnly : Bool
deriving DecidableEq, Repr

/-- corev1.SecurityContext restricted to the fields set by the sidecar
template. -/
structure SecurityContext where
  runAsNonRoot : Option Bool
  runAsUser : Option Int
deriving DecidableEq, Repr

/-- corev1.Container restricted to the fields the engine reads or writes. -/
structure Container where
  name : String
  image : String
  args : List String
  env : List EnvVar
  volumeMounts : List VolumeMount
  restartPolicy : Option String
  imagePullPolicy : Option String
  securityContext : Option SecurityContext
deriving DecidableEq, Repr

/-- corev1.VolumeSource: the engine only ever constructs an EmptyDir source
and otherwise treats sources as an object it never inspects. -/
inductive VolumeSource where
  | emptyDir
  | other (tag : String)
deriving DecidableEq, Repr

/-- corev1.Volume restricted to the fields the engine uses. -/
structure Volume where
  name : String
  source : VolumeSource
deriving DecidableEq, Repr

/-- corev1.PodSpec restricted to the fields the engine reads or writes. -/
structure PodSpec where
  initContainers : List Container
  containers : List Container
  volumes : List Volume
  automountServiceAccountToken : Option Bool
deriving DecidableEq, Repr

/-- corev1.Pod restricted to the spec subtree (the engine never touches
metadata). -/
structure Pod where
  spec : PodSpec
deriving DecidableEq, Repr

/-- conf.ServiceAccountPath: the well-known service-account mount path.  Its
value appears in conf/develop.go (`createServiceAccount`) and hardcoded in the
always-redirect variant of `addVolumeMount`. -/
def serviceAccountPath : String := "/var/run/secrets/kubernetes.io/serviceaccount"

/-- conf.MCAServiceAccountPath: the substitute service-account mount path used
by the sidecar template; value as in conf/develop.go. -/
def mcaServiceAccountPath : String := "/var/run/secrets/kubernetes.io/mca-serviceaccount"

/-- conf.ProxyImage as set in conf/develop.go. -/
def proxyImage : String := "mca:latest"

/-- The redirect-volume name, hardcoded as "kube-api-access-mca-sa" throughout
pkg/inject/inject.go. -/
def redirectVolumeName : String := "kube-api-access-mca-sa"

/-- The Go zero value of corev1.Container (what `var proxyContainer
corev1.Container` declares before any assignment). -/
def zeroContainer : Container :=
  { name := "", image := "", args := [], env := [], volumeMounts := [],
    restartPolicy := none, imagePullPolicy := none, securityContext := none }

/-- Effect of `yaml.Unmarshal([]byte(proxyContainerYAML), &proxyContainer)`:
fields present in the sidecar template YAML overwrite the current value, while
fields absent from it (image, env) are retained, since sigs.k8s.io/yaml
unmarshals into the existing struct. -/
def applyProxyContainerYAML (c : Container) : Container :=
  { c with
    name := "mca-proxy",
    restartPolicy := some "Always",
    imagePullPolicy := some "Always",
    securityContext := some { runAsNonRoot := some true, runAsUser := some 999 },
    args := ["--proxy"],
    volumeMounts :=
      [{ name := redirectVolumeName, mountPath := mcaServiceAccountPath,
         readOnly := false }] }

/-- The scan at the top of injectProxy: walk initContainers, remembering the
container named "mca-proxy" (Go overwrites the local on every hit, so the last
hit wins) and collecting all other init containers in their original order. -/
def splitProxy : List Container → Option Container × List Container
  | [] => (none, [])
  | c :: cs =>
    let r := splitProxy cs
    if c.name = "mca-proxy" then
      ((match r.1 with
        | some p => some p
        | none => some c), r.2)
    else (r.1, c :: r.2)

/-- The sidecar-selection branch of injectProxy: when the remembered container
still has an empty image (zero value, or a user sidecar without an image), the
template is unmarshalled over it and the configured proxy image is stamped in;
otherwise the remembered container is used verbatim. -/
def chooseProxy (found : Option Container) : Container :=
  let c := found.getD zeroContainer
  if c.image = "" then { applyProxyContainerYAML c with image := proxyImage }
  else c

/-- Loop body of addVolumeMount: rename the first volume mount whose mountPath
equals the service-account path to the redirect-volume name, leaving mountPath
and readOnly untouched; the Bool reports whether a mount was matched. -/
def renameFirstMatch : List VolumeMount → List VolumeMount × Bool
  | [] => ([], false)
  | m :: ms =>
    if m.mountPath = serviceAccountPath then
      ({ m with name := redirectVolumeName } :: ms, true)
    else
      let r := renameFirstMatch ms
      (m :: r.1, r.2)

/-- addVolumeMount from pkg/inject/inject.go (selective version, returning
whether a service-account mount was found and renamed). -/
def addVolumeMount (c : Container) : Container × Bool :=
  let r := renameFirstMatch c.volumeMounts
  ({ c with volumeMounts := r.1 }, r.2)

/-- The two-entry map literal inside addEnvVars, enumerated in one of its two
possible Go `range` orders. -/
def envVarsList : List (String × String) :=
  [("KUBERNETES_SERVICE_HOST", "127.0.0.1"), ("KUBERNETES_SERVICE_PORT", "6443")]

/-- The same map literal enumerated in the other Go `range` order (Go map
iteration order is unspecified and deliberately varies between runs). -/
def envVarsListSwapped : List (String × String) :=
  [("KUBERNETES_SERVICE_PORT", "6443"), ("KUBERNETES_SERVICE_HOST", "127.0.0.1")]

/-- Inner loop of addEnvVars for one (name, value) entry of the map: update
the first existing env entry with that name in place, else append. -/
def upsertEnv (n v : String) : List EnvVar → List EnvVar
  | [] => [{ name := n, value := v }]
  | e :: es =>
    if e.name = n then { e with value := v } :: es
    else e :: upsertEnv n v es

/-- Outer loop of addEnvVars: fold the map entries, in the given enumeration
order, over the container's env list with upsertEnv. -/
def applyEnvList (ord : List (String × String)) (es : List EnvVar) : List EnvVar :=
  ord.foldl (fun acc p => upsertEnv p.1 p.2 acc) es

/-- addEnvVars from pkg/inject/inject.go, parameterized by the order in which
Go's `range` happens to enumerate the two-entry map. -/
def addEnvVarsOrd (ord : List (String × String)) (c : Container) : Container :=
  { c with env := applyEnvList ord c.env }

/-- addEnvVars with one fixed enumeration order of the map. -/
def addEnvVars : Container → Container := addEnvVarsOrd envVarsList

/-- One iteration of the container loops in injectProxy: addVolumeMount, and
addEnvVars only when a service-account mount was matched. -/
def processContainerOrd (ord : List (String × String)) (c : Container) : Container :=
  let r := addVolumeMount c
  if r.2 then addEnvVarsOrd ord r.1 else r.1

/-- processContainerOrd with the fixed map enumeration order. -/
def processContainer : Container → Container := processContainerOrd envVarsList

/-- Apply f to the first n elements of a list, leaving the rest unchanged.
It models the first container loop of injectProxy, which ranges over the
filtered init containers but dereferences pod.Spec.Containers at the same
index. -/
def mapFirstN (f : Container → Container) : Nat → List Container → List Container
  | 0, l => l
  | _ + 1, [] => []
  | n + 1, c :: cs => f c :: mapFirstN f n cs

/-- addRequiredVolume from pkg/inject/inject.go: append an EmptyDir volume
named with the redirect-volume name unless one of that name already exists. -/
def addRequiredVolume (vols : List Volume) : List Volume :=
  if vols.any (fun v => v.name == redirectVolumeName) then vols
  else vols ++ [{ name := redirectVolumeName, source := VolumeSource.emptyDir }]

/-- injectProxy from pkg/inject/inject.go, parameterized by the Go map
iteration order used inside addEnvVars.  The result is `none` exactly when the
loop over the filtered init containers indexes pod.Spec.Containers out of
bounds, which in Go is a runtime panic; `some` carries the mutated pod. -/
def injectProxyOrd (ord : List (String × String)) (p : Pod) : Option Pod :=
  let s := splitProxy p.spec.initContainers
  let proxy := chooseProxy s.1
  if s.2.length ≤ p.spec.containers.length then
    some { spec := { p.spec with
      initContainers := proxy :: s.2,
      containers :=
        (mapFirstN (processContainerOrd ord) s.2.length p.spec.containers).map
          (processContainerOrd ord),
      volumes := addRequiredVolume p.spec.volumes } }
  else none

/-- injectProxy with the fixed map enumeration order. -/
def injectProxy : Pod → Option Pod := injectProxyOrd envVarsList

/-- ViaWebhook from pkg/inject/inject.go simply delegates to injectProxy. -/
def ViaWebhook : Pod → Option Pod := injectProxy

/-- One JSON Patch operation as produced by generateJSONPatch: the value is a
whole PodSpec subtree. -/
structure PatchOp where
  op : String
  path : String
  value : PodSpec
deriving DecidableEq, Repr

/-- The part of an admissionv1.AdmissionRequest the webhook reads: the
correlation UID and the embedded raw Pod object, modelled as either a parsed
Pod or a deserialization error message. -/
structure AdmissionRequest where
  uid : String
  object : Except String Pod

/-- The part of an admissionv1.AdmissionResponse the webhook writes. -/
structure AdmissionResponse where
  uid : String
  allowed : Bool
  message : Option String
  patchType : Option String
  patch : Option (List PatchOp)
deriving DecidableEq, Repr

/-- Server.mutateErr: a denial response carrying the request UID and a
formatted message. -/
def mutateErr (uid msg : String) : AdmissionResponse :=
  { uid := uid, allowed := false, message := some msg,
    patchType := none, patch := none }

/-- Server.generateJSONPatch: a single wholesale replacement of /spec with the
mutated pod's spec. -/
def generateJSONPatch (mutatedPod : Pod) : List PatchOp :=
  [{ op := "replace", path := "/spec", value := mutatedPod.spec }]

/-- Server.mutate.  The Go error return of inject.ViaWebhook can only fire if
unmarshalling the constant sidecar template fails, which it never does, so the
only engine failure mode is the out-of-bounds panic, modelled as `none` (the
panic escapes `mutate`, so no structured response is produced). -/
def mutate (req : AdmissionRequest) : Option AdmissionResponse :=
  match req.object with
  | Except.error e => some (mutateErr req.uid ("Failed to unmarshal pod: " ++ e))
  | Except.ok pod =>
    match injectProxy pod with
    | none => none
    | some mutatedPod =>
      some { uid := req.uid, allowed := true, message := none,
             patchType := some "JSONPatch",
             patch := some (generateJSONPatch mutatedPod) }

/-! Helper lemmas about the env-var upsert loop. -/

/-- Value of the first env entry with the given name, if any. -/
def firstVal (n : String) : List EnvVar → Option String
  | [] => none
  | e :: es => if e.name = n then some e.value else firstVal n es

theorem upsertEnv_get_ne (n v : String) (es : List EnvVar) (j : Nat) (e : EnvVar)
    (hj : es[j]? = some e) (hne : e.name ≠ n) : (upsertEnv n v es)[j]? = some e := by
  induction es generalizing j with
  | nil => simp at hj
  | cons e0 tl ih =>
    by_cases h0 : e0.name = n
    · cases j with
      | zero =>
        simp at hj
        subst hj
        exact absurd h0 hne
      | succ j =>
        simp [upsertEnv, h0] at hj ⊢
        exact hj
    · cases j with
      | zero =>
        simp at hj
        subst hj
        simp [upsertEnv, h0]
      | succ j =>
        simp at hj
        simp [upsertEnv, h0]
        exact ih j hj

theorem firstVal_upsert_self (n v : String) (es : List EnvVar) :
    firstVal n (upsertEnv n v es) = some v := by
  induction es with
  | nil => simp [upsertEnv, firstVal]
  | cons e tl ih =>
    by_cases h : e.name = n
    · simp [upsertEnv, firstVal, h]
    · simp [upsertEnv, firstVal, h, ih]

theorem firstVal_upsert_ne (n m v : String) (es : List EnvVar) (hnm : n ≠ m) :
    firstVal n (upsertEnv m v es) = firstVal n es := by
  induction es with
  | nil => simp [upsertEnv, firstVal, Ne.symm hnm]
  | cons e tl ih =>
    by_cases h : e.name = m
    · simp [upsertEnv, firstVal, h, Ne.symm hnm]
    · by_cases h2 : e.name = n
      · simp [upsertEnv, firstVal, h, h2, hnm]
      · simp [upsertEnv, firstVal, h, h2, ih]

theorem upsertEnv_of_firstVal (n v : String) (es : List EnvVar)
    (h : firstVal n es = some v) : upsertEnv n v es = es := by
  induction es with
  | nil => simp [firstVal] at h
  | cons e tl ih =>
    by_cases h0 : e.name = n
    · have hv : e.value = v := by simpa [firstVal, h0] using h
      have he : ({ name := n, value := v } : EnvVar) = e := by rw [← h0, ← hv]
      simp [upsertEnv, h0, he]
    · simp [firstVal, h0] at h
      simp [upsertEnv, h0, ih h]

theorem applyEnvList_pair (es : List EnvVar) :
    applyEnvList envVarsList es =
      upsertEnv "KUBERNETES_SERVICE_PORT" "6443"
        (upsertEnv "KUBERNETES_SERVICE_HOST" "127.0.0.1" es) := rfl

theorem applyEnvList_idem (es : List EnvVar) :
    applyEnvList envVarsList (applyEnvList envVarsList es) = applyEnvList envVarsList es := by
  rw [applyEnvList_pair, applyEnvList_pair]
  have hHost : firstVal "KUBERNETES_SERVICE_HOST"
      (upsertEnv "KUBERNETES_SERVICE_PORT" "6443"
        (upsertEnv "KUBERNETES_SERVICE_HOST" "127.0.0.1" es)) = some "127.0.0.1" := by
    rw [firstVal_upsert_ne _ _ _ _ (by decide)]
    exact firstVal_upsert_self _ _ _
  rw [upsertEnv_of_firstVal _ _ _ hHost]
  exact upsertEnv_of_firstVal _ _ _ (firstVal_upsert_self _ _ _)

theorem applyEnvList_get_ne (es : List EnvVar) (j : Nat) (e : EnvVar)
    (hj : es[j]? = some e)
    (h1 : e.name ≠ "KUBERNETES_SERVICE_HOST")
    (h2 : e.name ≠ "KUBERNETES_SERVICE_PORT") :
    (applyEnvList envVarsList es)[j]? = some e := by
  rw [applyEnvList_pair]
  exact upsertEnv_get_ne _ _ _ _ _ (upsertEnv_get_ne _ _ _ _ _ hj h1) h2

/-! Helper lemmas about the volume-mount rename loop. -/

theorem renameFirstMatch_of_false (ms : List VolumeMount)
    (h : (renameFirstMatch ms).2 = false) : (renameFirstMatch ms).1 = ms := by
  induction ms with
  | nil => rfl
  | cons m tl ih =>
    by_cases hm : m.mountPath = serviceAccountPath
    · simp [renameFirstMatch, hm] at h
    · simp [renameFirstMatch, hm] at h ⊢
      exact ih h

theorem renameFirstMatch_of_none (ms : List VolumeMount)
    (h : ∀ m ∈ ms, m.mountPath ≠ serviceAccountPath) :
    renameFirstMatch ms = (ms, false) := by
  induction ms with
  | nil => rfl
  | cons m tl ih =>
    have hm : m.mountPath ≠ serviceAccountPath := h m (by simp)
    have htl := ih (fun x hx => h x (by simp [hx]))
    simp [renameFirstMatch, hm, htl]

theorem renameFirstMatch_spec (ms : List VolumeMount) (k : Nat) (mk : VolumeMount)
    (hk : ms[k]? = some mk) (hpath : mk.mountPath = serviceAccountPath)
    (hfirst : ∀ j, j < k → ∀ m, ms[j]? = some m → m.mountPath ≠ serviceAccountPath) :
    renameFirstMatch ms = (ms.set k { mk with name := redirectVolumeName }, true) := by
  induction ms generalizing k with
  | nil => simp at hk
  | cons m tl ih =>
    by_cases hm : m.mountPath = serviceAccountPath
    · cases k with
      | zero =>
        simp at hk
        subst hk
        simp [renameFirstMatch, hm]
      | succ k =>
        exact absurd hm (hfirst 0 (Nat.succ_pos k) m (by simp))
    · cases k with
      | zero =>
        simp at hk
        subst hk
        exact absurd hpath hm
      | succ k =>
        simp at hk
        have htl := ih k hk
          (fun j hj x hx => hfirst (j + 1) (Nat.succ_lt_succ hj) x (by simpa using hx))
        simp [renameFirstMatch, hm, htl]

theorem renameFirstMatch_idem (ms : List VolumeMount)
    (h : (renameFirstMatch ms).2 = true) :
    renameFirstMatch (renameFirstMatch ms).1 = ((renameFirstMatch ms).1, true) := by
  induction ms with
  | nil => simp [renameFirstMatch] at h
  | cons m tl ih =>
    by_cases hm : m.mountPath = serviceAccountPath
    · simp [renameFirstMatch, hm]
    · simp [renameFirstMatch, hm] at h ⊢
      rw [ih h, ← h]
      exact ⟨rfl, rfl⟩

/-! Helper lemmas about processContainer. -/

theorem addEnvVarsOrd_volumeMounts (ord : List (String × String)) (c : Container) :
    (addEnvVarsOrd ord c).volumeMounts = c.volumeMounts := rfl

theorem processContainer_of_no_match (c : Container)
    (h : ∀ m ∈ c.volumeMounts, m.mountPath ≠ serviceAccountPath) :
    processContainer c = c := by
  have hr := renameFirstMatch_of_none c.volumeMounts h
  simp [processContainer, processContainerOrd, addVolumeMount, hr]

theorem addEnvVars_idem (c : Container) :
    addEnvVarsOrd envVarsList (addEnvVarsOrd envVarsList c) = addEnvVarsOrd envVarsList c := by
  simp [addEnvVarsOrd, applyEnvList_idem]

theorem processContainer_eq_of_match (c : Container)
    (hb : (renameFirstMatch c.volumeMounts).2 = true) :
    processContainer c =
      addEnvVarsOrd envVarsList
        { c with volumeMounts := (renameFirstMatch c.volumeMounts).1 } := by
  simp [processContainer, processContainerOrd, addVolumeMount, hb]

theorem addVolumeMount_of_stable (c : Container)
    (h : renameFirstMatch c.volumeMounts = (c.volumeMounts, true)) :
    addVolumeMount c = (c, true) := by
  simp [addVolumeMount, h]

theorem processContainer_idem (c : Container) :
    processContainer (processContainer c) = processContainer c := by
  by_cases hb : (renameFirstMatch c.volumeMounts).2 = true
  · rw [processContainer_eq_of_match c hb]
    set c1 := addEnvVarsOrd envVarsList
      { c with volumeMounts := (renameFirstMatch c.volumeMounts).1 } with hc1
    have hst : renameFirstMatch c1.volumeMounts = (c1.volumeMounts, true) :=
      renameFirstMatch_idem c.volumeMounts hb
    have hAdd := addVolumeMount_of_stable c1 hst
    show processContainerOrd envVarsList c1 = c1
    simp only [processContainerOrd, hAdd, if_true]
    rw [hc1]
    exact addEnvVars_idem _
  · have hb2 : (renameFirstMatch c.volumeMounts).2 = false := by
      revert hb
      cases (renameFirstMatch c.volumeMounts).2 <;> simp
    have h1 := renameFirstMatch_of_false c.volumeMounts hb2
    have hc : ({ c with volumeMounts := (renameFirstMatch c.volumeMounts).1 } : Container) = c := by
      rw [h1]
    simp [processContainer, processContainerOrd, addVolumeMount, hb2, hc]

/-! Helper lemmas about the first container loop (mapFirstN). -/

theorem mapFirstN_length (f : Container → Container) (n : Nat) (l : List Container) :
    (mapFirstN f n l).length = l.length := by
  induction l generalizing n with
  | nil => cases n <;> rfl
  | cons c cs ih =>
    cases n with
    | zero => rfl
    | succ n => simp [mapFirstN, ih]

theorem mapFirstN_getElem? (f : Container → Container) (n : Nat) (l : List Container)
    (i : Nat) :
    (mapFirstN f n l)[i]? = if i < n then (l[i]?).map f else l[i]? := by
  induction l generalizing n i with
  | nil =>
    cases n with
    | zero => simp [mapFirstN]
    | succ n => simp [mapFirstN]
  | cons c cs ih =>
    cases n with
    | zero => simp [mapFirstN]
    | succ n =>
      cases i with
      | zero => simp [mapFirstN]
      | succ i => simpa [mapFirstN] using ih n i

theorem mapFirstN_of_fixed (f : Container → Container) (n : Nat) (l : List Container)
    (h : ∀ c ∈ l, f c = c) : mapFirstN f n l = l := by
  induction l generalizing n with
  | nil => cases n <;> rfl
  | cons c cs ih =>
    cases n with
    | zero => rfl
    | succ n =>
      simp [mapFirstN, h c (by simp)]
      exact ih n (fun x hx => h x (by simp [hx]))

theorem map_of_fixed (f : Container → Container) (l : List Container)
    (h : ∀ c ∈ l, f c = c) : l.map f = l := by
  induction l with
  | nil => rfl
  | cons c cs ih =>
    simp [h c (by simp)]
    exact ih (fun x hx => h x (by simp [hx]))

/-! Helper lemmas about the init-container scan and sidecar selection. -/

theorem splitProxy_snd (l : List Container) :
    (splitProxy l).2 = l.filter (fun c => c.name != "mca-proxy") := by
  induction l with
  | nil => rfl
  | cons c cs ih =>
    by_cases h : c.name = "mca-proxy"
    · have hb : (c.name != "mca-proxy") = false := by simp [h]
      simp [splitProxy, h, ih, List.filter_cons, hb]
    · have hb : (c.name != "mca-proxy") = true := by simp [h]
      simp [splitProxy, h, ih, List.filter_cons, hb]

theorem splitProxy_fst_name (l : List Container) (c : Container)
    (h : (splitProxy l).1 = some c) : c.name = "mca-proxy" := by
  induction l with
  | nil => simp [splitProxy] at h
  | cons c0 cs ih =>
    by_cases h0 : c0.name = "mca-proxy"
    · simp only [splitProxy, h0, if_true] at h
      cases hr : (splitProxy cs).1 with
      | some p =>
        rw [hr] at h
        simp at h
        subst h
        exact ih hr
      | none =>
        rw [hr] at h
        simp at h
        subst h
        exact h0
    · simp only [splitProxy, h0, if_false] at h
      exact ih h

theorem splitProxy_of_no_proxy (l : List Container)
    (h : ∀ c ∈ l, c.name ≠ "mca-proxy") : splitProxy l = (none, l) := by
  induction l with
  | nil => rfl
  | cons c cs ih =>
    have hc : c.name ≠ "mca-proxy" := h c (by simp)
    have hcs := ih (fun x hx => h x (by simp [hx]))
    simp [splitProxy, hc, hcs]

theorem splitProxy_cons_proxy (p0 : Container) (rest : List Container)
    (h0 : p0.name = "mca-proxy") (hrest : ∀ c ∈ rest, c.name ≠ "mca-proxy") :
    splitProxy (p0 :: rest) = (some p0, rest) := by
  have hr := splitProxy_of_no_proxy rest hrest
  simp [splitProxy, h0, hr]

theorem splitProxy_fst_unique (l : List Container) (c : Container)
    (h1 : l.countP (fun x => decide (x.name = "mca-proxy")) = 1)
    (hc : c ∈ l) (hn : c.name = "mca-proxy") : (splitProxy l).1 = some c := by
  induction l with
  | nil => simp at hc
  | cons c0 cs ih =>
    by_cases h0 : c0.name = "mca-proxy"
    · have hcs : cs.countP (fun x => decide (x.name = "mca-proxy")) = 0 := by
        have h2 := h1
        rw [List.countP_cons] at h2
        simpa [h0] using h2
      have hnone : (splitProxy cs).1 = none := by
        have hno : ∀ x ∈ cs, x.name ≠ "mca-proxy" := by
          intro x hx
          have := List.countP_eq_zero.mp hcs x hx
          simpa using this
        rw [splitProxy_of_no_proxy cs hno]
      have hceq : c = c0 := by
        cases hc with
        | head => rfl
        | tail _ hmem =>
          exfalso
          have := List.countP_eq_zero.mp hcs c hmem
          simp [hn] at this
      subst hceq
      simp [splitProxy, h0, hnone]
    · have hcs : cs.countP (fun x => decide (x.name = "mca-proxy")) = 1 := by
        have := h1
        rw [List.countP_cons] at this
        simpa [h0] using this
      have hmem : c ∈ cs := by
        cases hc with
        | head => exact absurd hn h0
        | tail _ hmem => exact hmem
      simp only [splitProxy, h0, if_false]
      exact ih hcs hmem

theorem chooseProxy_name (o : Option Container)
    (h : ∀ d, o = some d → d.name = "mca-proxy") :
    (chooseProxy o).name = "mca-proxy" := by
  cases o with
  | none => rfl
  | some d =>
    by_cases hi : d.image = ""
    · simp [chooseProxy, hi, applyProxyContainerYAML]
    · simp [chooseProxy, hi]
      exact h d rfl

theorem chooseProxy_image_ne (o : Option Container) : (chooseProxy o).image ≠ "" := by
  cases o with
  | none => simp [chooseProxy, zeroContainer, proxyImage]
  | some d =>
    by_cases hi : d.image = ""
    · simp [chooseProxy, hi, proxyImage]
    · simp [chooseProxy, hi]

theorem chooseProxy_some_of_image (d : Container) (h : d.image ≠ "") :
    chooseProxy (some d) = d := by
  simp [chooseProxy, h]

/-! Helper lemmas about addRequiredVolume. -/

theorem addRequiredVolume_any (vols : List Volume) :
    (addRequiredVolume vols).any (fun v => v.name == redirectVolumeName) = true := by
  unfold addRequiredVolume
  by_cases h : vols.any (fun v => v.name == redirectVolumeName) = true
  · rw [if_pos h]
    exact h
  · rw [if_neg h, List.any_append]
    simp

theorem addRequiredVolume_idem (vols : List Volume) :
    addRequiredVolume (addRequiredVolume vols) = addRequiredVolume vols := by
  have h := addRequiredVolume_any vols
  show (if (addRequiredVolume vols).any (fun v => v.name == redirectVolumeName) then
      addRequiredVolume vols
    else addRequiredVolume vols ++
      [{ name := redirectVolumeName, source := VolumeSource.emptyDir }]) =
    addRequiredVolume vols
  rw [if_pos h]

theorem addRequiredVolume_countP (vols : List Volume)
    (h : vols.countP (fun v => decide (v.name = redirectVolumeName)) ≤ 1) :
    (addRequiredVolume vols).countP (fun v => decide (v.name = redirectVolumeName)) = 1 := by
  unfold addRequiredVolume
  by_cases ha : vols.any (fun v => v.name == redirectVolumeName) = true
  · rw [if_pos ha]
    have ⟨v, hv, hveq⟩ := List.any_eq_true.mp ha
    have hpos : 0 < vols.countP (fun v => decide (v.name = redirectVolumeName)) :=
      List.countP_pos_iff.mpr ⟨v, hv, by simpa using hveq⟩
    omega
  · rw [if_neg ha, List.countP_append]
    have hz : vols.countP (fun v => decide (v.name = redirectVolumeName)) = 0 := by
      apply List.countP_eq_zero.mpr
      intro v hv
      simp only [decide_eq_true_eq]
      intro hveq
      exact ha (List.any_eq_true.mpr ⟨v, hv, by simp [hveq]⟩)
    rw [hz]
    simp

theorem addRequiredVolume_mem (vols : List Volume) (v : Volume) (h : v ∈ vols) :
    v ∈ addRequiredVolume vols := by
  unfold addRequiredVolume
  by_cases ha : vols.any (fun x => x.name == redirectVolumeName) = true
  · rw [if_pos ha]
    exact h
  · rw [if_neg ha]
    exact List.mem_append_left _ h

/-! Characterization of injectProxy. -/

theorem injectProxyOrd_eq_some (ord : List (String × String)) (p : Pod)
    (h : (splitProxy p.spec.initContainers).2.length ≤ p.spec.containers.length) :
    injectProxyOrd ord p = some ⟨⟨
      chooseProxy (splitProxy p.spec.initContainers).1 :: (splitProxy p.spec.initContainers).2,
      (mapFirstN (processContainerOrd ord) (splitProxy p.spec.initContainers).2.length
        p.spec.containers).map (processContainerOrd ord),
      addRequiredVolume p.spec.volumes,
      p.spec.automountServiceAccountToken⟩⟩ := by
  simp [injectProxyOrd, h]

theorem injectProxyOrd_none (ord : List (String × String)) (p : Pod)
    (h : ¬ (splitProxy p.spec.initContainers).2.length ≤ p.spec.containers.length) :
    injectProxyOrd ord p = none := by
  simp [injectProxyOrd, h]

theorem injectProxy_some_inv (p out : Pod) (h : injectProxy p = some out) :
    (splitProxy p.spec.initContainers).2.length ≤ p.spec.containers.length ∧
    out = ⟨⟨
      chooseProxy (splitProxy p.spec.initContainers).1 :: (splitProxy p.spec.initContainers).2,
      (mapFirstN processContainer (splitProxy p.spec.initContainers).2.length
        p.spec.containers).map processContainer,
      addRequiredVolume p.spec.volumes,
      p.spec.automountServiceAccountToken⟩⟩ := by
  by_cases hc : (splitProxy p.spec.initContainers).2.length ≤ p.spec.containers.length
  · refine ⟨hc, ?_⟩
    have := injectProxyOrd_eq_some envVarsList p hc
    rw [show injectProxy = injectProxyOrd envVarsList from rfl, this] at h
    simpa [processContainer] using h.symm
  · rw [show injectProxy = injectProxyOrd envVarsList from rfl,
      injectProxyOrd_none envVarsList p hc] at h
    simp at h

/-! Concrete pods used as witnesses and failing inputs. -/

/-- A pod with empty spec (no init containers, containers or volumes). -/
def emptyPod : Pod := ⟨⟨[], [], [], none⟩⟩

/-- The engine's output on emptyPod: the default sidecar is prepended and the
redirect volume appended. -/
def emptyPodOut : Pod :=
  ⟨⟨[chooseProxy none], [], [⟨redirectVolumeName, VolumeSource.emptyDir⟩], none⟩⟩

/-- An application container mounting the service-account path, with one
unrelated env var, as in the spec's concrete scenario. -/
def saContainer : Container :=
  { name := "app", image := "nginx", args := [],
    env := [⟨"APP_ENV", "production"⟩],
    volumeMounts := [⟨"kube-api-access", serviceAccountPath, true⟩],
    restartPolicy := none, imagePullPolicy := none, securityContext := none }

/-- A pod holding just saContainer. -/
def saMountPod : Pod := ⟨⟨[], [saContainer], [], none⟩⟩

/-- The engine's output on saMountPod (with the HOST-then-PORT map order). -/
def saMountPodOut : Pod :=
  ⟨⟨[chooseProxy none],
    [{ name := "app", image := "nginx", args := [],
       env := [⟨"APP_ENV", "production"⟩,
               ⟨"KUBERNETES_SERVICE_HOST", "127.0.0.1"⟩,
               ⟨"KUBERNETES_SERVICE_PORT", "6443"⟩],
       volumeMounts := [⟨redirectVolumeName, serviceAccountPath, true⟩],
       restartPolicy := none, imagePullPolicy := none, securityContext := none }],
    [⟨redirectVolumeName, VolumeSource.emptyDir⟩], none⟩⟩

/-- A container with no service-account mount. -/
def plainContainer : Container :=
  { name := "app", image := "nginx", args := [],
    env := [⟨"APP_ENV", "production"⟩],
    volumeMounts := [⟨"data", "/data", false⟩],
    restartPolicy := none, imagePullPolicy := none, securityContext := none }

/-- A pod holding just plainContainer. -/
def plainPod : Pod := ⟨⟨[], [plainContainer], [], none⟩⟩

/-- The engine's output on plainPod: the container is untouched. -/
def plainPodOut : Pod :=
  ⟨⟨[chooseProxy none], [plainContainer],
    [⟨redirectVolumeName, VolumeSource.emptyDir⟩], none⟩⟩

/-- A pod that already carries a redirect-named volume with a non-EmptyDir
source. -/
def volPod : Pod :=
  ⟨⟨[], [], [⟨redirectVolumeName, VolumeSource.other "projected"⟩], none⟩⟩

/-- The engine's output on volPod: the existing volume is kept as-is. -/
def volPodOut : Pod :=
  ⟨⟨[chooseProxy none], [],
    [⟨redirectVolumeName, VolumeSource.other "projected"⟩], none⟩⟩

/-- A user-configured sidecar with custom image and args. -/
def customSidecar : Container :=
  { name := "mca-proxy", image := "custom/proxy:2",
    args := ["--proxy", "--debug"], env := [], volumeMounts := [],
    restartPolicy := none, imagePullPolicy := none, securityContext := none }

/-- A pod whose init containers already contain the custom sidecar. -/
def customPod : Pod := ⟨⟨[customSidecar], [], [], none⟩⟩

/-- The engine's output on customPod: the custom sidecar is adopted
verbatim. -/
def customPodOut : Pod :=
  ⟨⟨[customSidecar], [], [⟨redirectVolumeName, VolumeSource.emptyDir⟩], none⟩⟩

/-- A pod with automountServiceAccountToken explicitly set to true. -/
def automountTruePod : Pod := ⟨⟨[], [], [], some true⟩⟩

/-- A pod with two non-sidecar init containers but only one application
container: the init-container loop then dereferences
pod.Spec.Containers[1], which is out of bounds. -/
def twoInitsOneContainerPod : Pod :=
  ⟨⟨[⟨"init-a", "busybox", [], [], [], none, none, none⟩,
     ⟨"init-b", "busybox", [], [], [], none, none, none⟩],
    [⟨"app", "nginx", [], [], [], none, none, none⟩], [], none⟩⟩

/-- An admission request whose embedded object fails to deserialize. -/
def reqErr : AdmissionRequest := ⟨"uid-1", Except.error "bad json"⟩

/-- An admission request carrying a well-formed pod. -/
def reqOk : AdmissionRequest := ⟨"uid-2", Except.ok emptyPod⟩

/-! Claim theorems. -/

/-- C1: for every pod on which injectProxy returns, the mutated pod's first
init container is named "mca-proxy", that name occurs exactly once among the
init containers, and the remaining init containers are exactly the input's
non-sidecar init containers in their original relative order. -/
theorem injectProxy_sidecar_first (p out : Pod) (h : injectProxy p = some out) :
    ∃ c rest, out.spec.initContainers = c :: rest ∧ c.name = "mca-proxy" ∧
      rest = p.spec.initContainers.filter (fun d => d.name != "mca-proxy") ∧
      out.spec.initContainers.countP (fun d => decide (d.name = "mca-proxy")) = 1 := by
  obtain ⟨hlen, hout⟩ := injectProxy_some_inv p out h
  subst hout
  have hname : (chooseProxy (splitProxy p.spec.initContainers).1).name = "mca-proxy" :=
    chooseProxy_name _ (fun d hd => splitProxy_fst_name _ d hd)
  have hrest : (splitProxy p.spec.initContainers).2.countP
      (fun d => decide (d.name = "mca-proxy")) = 0 := by
    apply List.countP_eq_zero.mpr
    intro d hd
    rw [splitProxy_snd] at hd
    have hf := List.of_mem_filter hd
    simpa using hf
  refine ⟨_, _, rfl, hname, splitProxy_snd _, ?_⟩
  rw [List.countP_cons, hrest]
  simp [hname]

/-- C3 (divergence witness): injectProxy never touches
automountServiceAccountToken: a pod entering with the field set to true leaves
with it still true, not false as the specification requires. -/
theorem injectProxy_automount_unchanged :
    (injectProxy automountTruePod).map (fun q => q.spec.automountServiceAccountToken) =
      some (some true) := by decide

/-- C4: a container in spec.containers with no volume mount at the well-known
service-account path receives no new environment variables: its env sequence
in the output equals its env sequence in the input. -/
theorem injectProxy_no_mount_no_new_env (p out : Pod) (i : Nat) (c : Container)
    (h : injectProxy p = some out)
    (hc : p.spec.containers[i]? = some c)
    (hm : ∀ m ∈ c.volumeMounts, m.mountPath ≠ serviceAccountPath) :
    ∃ c', out.spec.containers[i]? = some c' ∧ c'.env = c.env := by
  obtain ⟨hlen, hout⟩ := injectProxy_some_inv p out h
  subst hout
  have hfix := processContainer_of_no_match c hm
  refine ⟨c, ?_, rfl⟩
  rw [List.getElem?_map, mapFirstN_getElem?]
  by_cases hi : i < (splitProxy p.spec.initContainers).2.length
  · simp [hi, hc, hfix]
  · simp [hi, hc, hfix]

/-- C5: in the engine's output the redirect-volume name occurs exactly once in
spec.volumes (given the Pod Document invariant that volume names are unique in
the input, i.e. the name occurs at most once there), and a pre-existing volume
of that name survives with its source untouched. -/
theorem injectProxy_redirect_volume_once (p out : Pod)
    (h : injectProxy p = some out)
    (hcount : p.spec.volumes.countP (fun v => decide (v.name = redirectVolumeName)) ≤ 1) :
    out.spec.volumes.countP (fun v => decide (v.name = redirectVolumeName)) = 1 ∧
      ∀ v ∈ p.spec.volumes, v.name = redirectVolumeName → v ∈ out.spec.volumes := by
  obtain ⟨hlen, hout⟩ := injectProxy_some_inv p out h
  subst hout
  exact ⟨addRequiredVolume_countP _ hcount,
    fun v hv _ => addRequiredVolume_mem _ v hv⟩

/-- C6: when the input's init containers contain exactly one container named
"mca-proxy" and it has a non-empty image, the output's first init container is
that container verbatim: same image, same args. -/
theorem injectProxy_custom_sidecar_preserved (p out : Pod) (c : Container)
    (h : injectProxy p = some out)
    (hmem : c ∈ p.spec.initContainers) (hname : c.name = "mca-proxy")
    (himg : c.image ≠ "")
    (huniq : p.spec.initContainers.countP (fun x => decide (x.name = "mca-proxy")) = 1) :
    ∃ c0 rest, out.spec.initContainers = c0 :: rest ∧
      c0.image = c.image ∧ c0.args = c.args := by
  obtain ⟨hlen, hout⟩ := injectProxy_some_inv p out h
  subst hout
  have hfst := splitProxy_fst_unique p.spec.initContainers c huniq hmem hname
  have hch : chooseProxy (splitProxy p.spec.initContainers).1 = c := by
    rw [hfst]
    exact chooseProxy_some_of_image c himg
  exact ⟨_, _, rfl, by rw [hch], by rw [hch]⟩

/-- C7: for a container whose first service-account-path mount is at index k,
the engine only renames that mount (its mountPath and readOnly and every other
mount are untouched: the output's mount list is exactly the input's with index
k's name replaced), and every env entry whose name is neither
KUBERNETES_SERVICE_HOST nor KUBERNETES_SERVICE_PORT keeps its value and its
sequence position. -/
theorem injectProxy_redirect_frame (p out : Pod) (i : Nat) (c : Container)
    (k : Nat) (mnt : VolumeMount)
    (h : injectProxy p = some out)
    (hc : p.spec.containers[i]? = some c)
    (hk : c.volumeMounts[k]? = some mnt)
    (hpath : mnt.mountPath = serviceAccountPath)
    (hfirst : ∀ j, j < k → ∀ m, c.volumeMounts[j]? = some m →
      m.mountPath ≠ serviceAccountPath) :
    ∃ c', out.spec.containers[i]? = some c' ∧
      c'.volumeMounts = c.volumeMounts.set k { mnt with name := redirectVolumeName } ∧
      (∀ (j : Nat) (e : EnvVar), c.env[j]? = some e →
        e.name ≠ "KUBERNETES_SERVICE_HOST" →
        e.name ≠ "KUBERNETES_SERVICE_PORT" → c'.env[j]? = some e) := by
  obtain ⟨hlen, hout⟩ := injectProxy_some_inv p out h
  subst hout
  have hspec := renameFirstMatch_spec c.volumeMounts k mnt hk hpath hfirst
  have hb : (renameFirstMatch c.volumeMounts).2 = true := by rw [hspec]
  have hproc : processContainer c =
      addEnvVarsOrd envVarsList
        { c with volumeMounts :=
            c.volumeMounts.set k { mnt with name := redirectVolumeName } } := by
    rw [processContainer_eq_of_match c hb, hspec]
  refine ⟨processContainer c, ?_, ?_, ?_⟩
  · rw [List.getElem?_map, mapFirstN_getElem?]
    by_cases hi : i < (splitProxy p.spec.initContainers).2.length
    · simp [hi, hc, processContainer_idem]
    · simp [hi, hc]
  · rw [hproc]
    rfl
  · intro j e hj h1 h2
    rw [hproc]
    show (applyEnvList envVarsList c.env)[j]? = some e
    exact applyEnvList_get_ne c.env j e hj h1 h2

/-- C8: the webhook's mutate answers a deserialization failure with a denial
carrying the request UID and a human-readable message, and answers a pod on
which the engine completes with an allow carrying the same UID and a JSON
patch that is a single wholesale replacement of /spec with the mutated pod's
spec. -/
theorem mutate_uid_and_patch (req : AdmissionRequest) :
    (∀ e, req.object = Except.error e →
      mutate req = some { uid := req.uid, allowed := false,
                          message := some ("Failed to unmarshal pod: " ++ e),
                          patchType := none, patch := none }) ∧
    (∀ pod out, req.object = Except.ok pod → injectProxy pod = some out →
      mutate req = some { uid := req.uid, allowed := true, message := none,
                          patchType := some "JSONPatch",
                          patch := some [{ op := "replace", path := "/spec",
                                           value := out.spec }] }) := by
  constructor
  · intro e he
    simp [mutate, he, mutateErr]
  · intro pod out he hinj
    simp [mutate, he, hinj, generateJSONPatch]

/-- C9 (divergence witness): the two possible iteration orders of the Go map
inside addEnvVars give observably different outputs on the same input pod, so
two invocations of injectProxy need not produce structurally identical
results: the appended env entries can come out in either order. -/
theorem injectProxy_env_append_order_nondet :
    injectProxyOrd envVarsListSwapped saMountPod ≠ injectProxy saMountPod := by decide

/-- C10 (divergence witness): on a pod with more non-sidecar init containers
than application containers the first container loop of injectProxy indexes
pod.Spec.Containers out of bounds, a runtime panic: the engine does not return
a mutated pod. -/
theorem injectProxy_init_loop_out_of_bounds :
    injectProxy twoInitsOneContainerPod = none := by decide

/-- C2: applying the engine to its own output is a fixed point: whenever
injectProxy p returns a pod, injectProxy maps that pod to itself, so sidecar
count, volume count, init-container ordering and every container's env list
are all unchanged by a second run. -/
theorem injectProxy_idempotent (p out : Pod) (h : injectProxy p = some out) :
    injectProxy out = some out := by
  obtain ⟨hlen, hout⟩ := injectProxy_some_inv p out h
  have hname : (chooseProxy (splitProxy p.spec.initContainers).1).name = "mca-proxy" :=
    chooseProxy_name _ (fun d hd => splitProxy_fst_name _ d hd)
  have hrest : ∀ c ∈ (splitProxy p.spec.initContainers).2, c.name ≠ "mca-proxy" := by
    intro c hcm
    rw [splitProxy_snd] at hcm
    have hf := List.of_mem_filter hcm
    simpa using hf
  have hsplit := splitProxy_cons_proxy _ _ hname hrest
  have hchoose := chooseProxy_some_of_image _
    (chooseProxy_image_ne (splitProxy p.spec.initContainers).1)
  have hfix : ∀ c ∈ (mapFirstN processContainer
      (splitProxy p.spec.initContainers).2.length p.spec.containers).map processContainer,
      processContainer c = c := by
    intro c hcm
    obtain ⟨x, hx, rfl⟩ := List.mem_map.mp hcm
    exact processContainer_idem x
  subst hout
  have hcond : (splitProxy (chooseProxy (splitProxy p.spec.initContainers).1 ::
      (splitProxy p.spec.initContainers).2)).2.length ≤
      ((mapFirstN processContainer (splitProxy p.spec.initContainers).2.length
        p.spec.containers).map processContainer).length := by
    rw [hsplit, List.length_map, mapFirstN_length]
    exact hlen
  have happ := injectProxyOrd_eq_some envVarsList
    ⟨⟨chooseProxy (splitProxy p.spec.initContainers).1 :: (splitProxy p.spec.initContainers).2,
      (mapFirstN processContainer (splitProxy p.spec.initContainers).2.length
        p.spec.containers).map processContainer,
      addRequiredVolume p.spec.volumes,
      p.spec.automountServiceAccountToken⟩⟩ hcond
  rw [show injectProxy = injectProxyOrd envVarsList from rfl, happ]
  have h1 : mapFirstN processContainer (splitProxy p.spec.initContainers).2.length
      ((mapFirstN processContainer (splitProxy p.spec.initContainers).2.length
        p.spec.containers).map processContainer) =
      (mapFirstN processContainer (splitProxy p.spec.initContainers).2.length
        p.spec.containers).map processContainer :=
    mapFirstN_of_fixed _ _ _ hfix
  have h2 : ((mapFirstN processContainer (splitProxy p.spec.initContainers).2.length
      p.spec.containers).map processContainer).map processContainer =
      (mapFirstN processContainer (splitProxy p.spec.initContainers).2.length
        p.spec.containers).map processContainer :=
    map_of_fixed _ _ hfix
  simp only [hsplit, hchoose, addRequiredVolume_idem, processContainer]
  rw [show (processContainerOrd envVarsList) = processContainer from rfl]
  rw [h1, h2]

/-- An admission request whose pod deserializes fine but trips the engine's
out-of-bounds indexing. -/
def reqPanic : AdmissionRequest := ⟨"uid-3", Except.ok twoInitsOneContainerPod⟩

/-- Counterexample to an unconditional allow: on reqPanic the embedded pod
deserializes, yet mutate produces no response at all (the engine's
out-of-bounds panic escapes the handler), so it is not the case that every
deserializable pod yields an Allowed=true response. -/
theorem mutate_engine_panic_no_response : mutate reqPanic = none := by decide

/-! Witnesses: each claim theorem with hypotheses, applied at a concrete
input with every hypothesis discharged. -/

/-- Witness for the sidecar-first theorem at the empty pod. -/
theorem injectProxy_sidecar_first_witness :
    ∃ c rest, emptyPodOut.spec.initContainers = c :: rest ∧ c.name = "mca-proxy" ∧
      rest = emptyPod.spec.initContainers.filter (fun d => d.name != "mca-proxy") ∧
      emptyPodOut.spec.initContainers.countP (fun d => decide (d.name = "mca-proxy")) = 1 :=
  injectProxy_sidecar_first emptyPod emptyPodOut (by rfl)

/-- Witness for the idempotence theorem at the empty pod. -/
theorem injectProxy_idempotent_witness :
    injectProxy emptyPodOut = some emptyPodOut :=
  injectProxy_idempotent emptyPod emptyPodOut (by rfl)

/-- Witness for the no-mount-no-new-env theorem at a pod whose container has
no service-account mount. -/
theorem injectProxy_no_mount_no_new_env_witness :
    ∃ c', plainPodOut.spec.containers[0]? = some c' ∧ c'.env = plainContainer.env :=
  injectProxy_no_mount_no_new_env plainPod plainPodOut 0 plainContainer
    (by rfl) (by rfl) (by decide)

/-- Witness for the redirect-volume theorem at a pod that already carries the
redirect-named volume with a projected source. -/
theorem injectProxy_redirect_volume_once_witness :
    volPodOut.spec.volumes.countP (fun v => decide (v.name = redirectVolumeName)) = 1 ∧
      ∀ v ∈ volPod.spec.volumes, v.name = redirectVolumeName → v ∈ volPodOut.spec.volumes :=
  injectProxy_redirect_volume_once volPod volPodOut (by rfl) (by decide)

/-- Witness for the custom-sidecar theorem at a pod with a user-configured
sidecar. -/
theorem injectProxy_custom_sidecar_preserved_witness :
    ∃ c0 rest, customPodOut.spec.initContainers = c0 :: rest ∧
      c0.image = customSidecar.image ∧ c0.args = customSidecar.args :=
  injectProxy_custom_sidecar_preserved customPod customPodOut customSidecar
    (by rfl) (by decide) (by decide) (by decide) (by decide)

/-- Witness for the frame theorem at the spec's concrete scenario pod. -/
theorem injectProxy_redirect_frame_witness :
    ∃ c', saMountPodOut.spec.containers[0]? = some c' ∧
      c'.volumeMounts = saContainer.volumeMounts.set 0
        { name := redirectVolumeName, mountPath := serviceAccountPath,
          readOnly := true } ∧
      (∀ (j : Nat) (e : EnvVar), saContainer.env[j]? = some e →
        e.name ≠ "KUBERNETES_SERVICE_HOST" →
        e.name ≠ "KUBERNETES_SERVICE_PORT" → c'.env[j]? = some e) :=
  injectProxy_redirect_frame saMountPod saMountPodOut 0 saContainer 0
    ⟨"kube-api-access", serviceAccountPath, true⟩
    (by rfl) (by rfl) (by rfl) (by rfl)
    (fun j hj m hm => absurd hj (Nat.not_lt_zero j))

/-- Witness for the webhook theorem: one denied malformed request and one
allowed request carrying the empty pod. -/
theorem mutate_uid_and_patch_witness :
    mutate reqErr = some { uid := reqErr.uid, allowed := false,
                           message := some ("Failed to unmarshal pod: " ++ "bad json"),
                           patchType := none, patch := none } ∧
    mutate reqOk = some { uid := reqOk.uid, allowed := true, message := none,
                          patchType := some "JSONPatch",
                          patch := some [{ op := "replace", path := "/spec",
                                           value := emptyPodOut.spec }] } :=
  ⟨(mutate_uid_and_patch reqErr).1 "bad json" rfl,
   (mutate_uid_and_patch reqOk).2 emptyPod emptyPodOut rfl (by rfl)⟩

end K8sMCA
